import Mathlib

/-!
Shallow embedding of the servo PWM driver (src/servo.c) and proofs of the
spec claims about it.

The motion-control core of the driver consists of:
  * `map_angle_to_pulse_ns` — angle → pulse-width mapping (32-bit unsigned
    C arithmetic, modelled with explicit `% 2^32`);
  * `servo_apply_angle` — hardware apply path;
  * `servo_motion_tick` — the periodic control-loop step;
  * the ioctl command handlers (`servo_ioctl_enable`, `servo_ioctl_set_angle`,
    `servo_ioctl_get_angle`, `servo_ioctl_set_speed`, `servo_ioctl_get_speed`,
    `servo_ioctl_set_limits`, `servo_ioctl_get_limits`);
  * the state-initialisation part of `servo_probe`.

Hardware and scheduler interactions are modelled as an explicit event trace
(`event`), and the PWM backend's return codes are an oracle (`pwm_backend`).
C `int` values are modelled as `Int`, C `unsigned int` values as `Nat`
together with the range facts guaranteed by their C type (`< 2^32`) stated
as hypotheses where they matter; the wrap-around of unsigned arithmetic is
written out with `% U32`.
-/

/-- `2^32`, the modulus of C `unsigned int` arithmetic on this platform. -/
def U32 : Nat := 4294967296

/-- C conversion of a signed `int` value to `unsigned int`
(reduction modulo `2^32`, defined behaviour in C). -/
def toUns (z : Int) : Nat := (z % (4294967296 : Int)).toNat

/-- C conversion of an `unsigned int` value to `int`
(two's-complement reinterpretation, the usual implementation-defined choice). -/
def toSigned (n : Nat) : Int :=
  let m := n % 4294967296
  if m < 2147483648 then (m : Int) else (m : Int) - 4294967296

/-- Wrap-around of a C `int` arithmetic result (two's-complement reduction
into `[-2^31, 2^31)`): the kernel is built with `-fno-strict-overflow`, so
signed `int` overflow wraps like the machine does. -/
def wrap32 (z : Int) : Int := toSigned (toUns z)

/-- `struct servo_limits` from src/include/servo_uapi.h.
`min_angle`/`max_angle` are C `int` (modelled as `Int`),
`min_pulse_ns`/`max_pulse_ns` are C `unsigned int` (modelled as `Nat`). -/
structure servo_limits where
  min_angle : Int
  max_angle : Int
  min_pulse_ns : Nat
  max_pulse_ns : Nat
deriving Repr, DecidableEq

/-- The state fields of `struct servo_dev` from src/servo.c that the motion
core reads and writes (the chardev/platform plumbing fields are out of
scope). -/
structure servo_dev where
  enabled : Bool
  cur_angle : Int
  target_angle : Int
  speed_dps : Int
  limits : servo_limits
  period_ns : Nat
  tick_ms : Nat
deriving Repr, DecidableEq

/-- Observable calls the driver makes into its collaborators: the PWM
backend (`pwm_config`, `pwm_enable`, `pwm_disable`) and the workqueue
scheduler (`schedule_delayed_work` as `sched`, `cancel_delayed_work_sync`
as `cancel_work`). -/
inductive event where
  | pwm_config (duty_ns : Nat) (period_ns : Nat)
  | pwm_enable
  | pwm_disable
  | sched (delay_ms : Nat)
  | cancel_work
deriving Repr, DecidableEq

/-- Whether an event is a pulse-width write to the PWM backend
(a `pwm_config` call). -/
def isPulseWrite : event → Bool
  | event.pwm_config _ _ => true
  | _ => false

/-- Oracle for the PWM backend's return codes: `config_ret duty period` is
what `pwm_config(pwm, duty, period)` returns, `enable_ret` what
`pwm_enable(pwm)` returns (0 = success, negative errno on failure). -/
structure pwm_backend where
  config_ret : Nat → Nat → Int
  enable_ret : Int

/-- The two clamping `if`s shared by `map_angle_to_pulse_ns` and the
`SERVO_IOCTL_SET_ANGLE` handler:
`if (v < min_angle) v = min_angle; if (v > max_angle) v = max_angle;`. -/
def clampAngle (l : servo_limits) (v : Int) : Int :=
  if (if v < l.min_angle then l.min_angle else v) > l.max_angle then l.max_angle
  else if v < l.min_angle then l.min_angle else v

/-- `map_angle_to_pulse_ns` from src/servo.c lines 48-59, with the C
`unsigned int` arithmetic written out: `span = max_ns - min_ns` wraps,
`span * (unsigned)(angle - min_angle)` wraps, the division is unsigned,
and the final addition wraps. -/
def map_angle_to_pulse_ns (l : servo_limits) (angle : Int) : Nat :=
  let min_ns := l.min_pulse_ns
  let max_ns := l.max_pulse_ns
  let span := (max_ns + U32 - min_ns) % U32
  let a := clampAngle l angle
  (min_ns + span * toUns (a - l.min_angle) % U32 / toUns (l.max_angle - l.min_angle)) % U32

/-- `servo_apply_angle` from src/servo.c lines 61-78: no-op success when
disabled; otherwise one `pwm_config` call with the mapped duty, and
`cur_angle` is updated only when that call returns 0.
Result: (new state, return value, event trace). -/
def servo_apply_angle (hw : pwm_backend) (sd : servo_dev) (angle : Int) :
    servo_dev × Int × List event :=
  if sd.enabled = false then (sd, 0, [])
  else
    let duty_ns := map_angle_to_pulse_ns sd.limits angle
    let ret := hw.config_ret duty_ns sd.period_ns
    if ret = 0 then
      ({sd with cur_angle := angle}, 0, [event.pwm_config duty_ns sd.period_ns])
    else
      (sd, ret, [event.pwm_config duty_ns sd.period_ns])

/-- The `out_resched_if_needed` tail of `servo_motion_tick`:
reschedule after `tick_ms` iff `enabled && speed_dps > 0 &&
cur_angle != target_angle`. -/
def reschedList (sd : servo_dev) : List event :=
  if sd.enabled = true ∧ 0 < sd.speed_dps ∧ sd.cur_angle ≠ sd.target_angle then
    [event.sched sd.tick_ms]
  else []

/-- The raw per-tick step computation of `servo_motion_tick`:
`(sd->speed_dps * sd->tick_ms + 500) / 1000` in C `unsigned int`
arithmetic (the `int` operand is converted to `unsigned`, every operation
wraps modulo `2^32`, the division is unsigned). -/
def tick_step_raw (sd : servo_dev) : Nat :=
  (toUns sd.speed_dps * (sd.tick_ms % U32) % U32 + 500) % U32 / 1000

/-- The next angle `servo_motion_tick` moves to when its active branch is
taken: the raw step is stored into the `int` variable `step_deg`, forced
to at least 1, and the move is by `min(step_deg, |delta|)` toward the
target. `delta = target_angle - cur_angle`, the negation `-delta` and the
additions `cur_angle ± min(...)` are C `int` arithmetic, so each result
wraps into `[-2^31, 2^31)` (`wrap32`). -/
def tick_next_angle (sd : servo_dev) : Int :=
  let step0 : Int := toSigned (tick_step_raw sd)
  let step_deg : Int := if step0 ≤ 0 then 1 else step0
  let delta := wrap32 (sd.target_angle - sd.cur_angle)
  if 0 < delta then wrap32 (sd.cur_angle + min step_deg delta)
  else wrap32 (sd.cur_angle - min step_deg (wrap32 (-delta)))

/-- `servo_motion_tick` from src/servo.c lines 86-112: do nothing when
disabled, in jump mode, or already at the target; otherwise step toward
the target and apply; in all cases reschedule iff
`enabled && speed_dps > 0 && cur_angle != target_angle` holds afterwards. -/
def servo_motion_tick (hw : pwm_backend) (sd : servo_dev) :
    servo_dev × List event :=
  if sd.enabled = false ∨ sd.speed_dps = 0 ∨ sd.cur_angle = sd.target_angle then
    (sd, reschedList sd)
  else
    let r := servo_apply_angle hw sd (tick_next_angle sd)
    (r.1, r.2.2 ++ reschedList r.1)

/-- The `SERVO_IOCTL_ENABLE` case of `servo_unlocked_ioctl`
(src/servo.c lines 122-142). Note that the return value of the inner
`servo_apply_angle` call is discarded by the C code.
Result: (new state, ioctl return value, event trace). -/
def servo_ioctl_enable (hw : pwm_backend) (sd : servo_dev) (val : Int) :
    servo_dev × Int × List event :=
  if val ≠ 0 ∧ sd.enabled = false then
    let ret := hw.enable_ret
    if ret = 0 then
      let sd1 := {sd with enabled := true}
      let r := servo_apply_angle hw sd1 sd1.cur_angle
      let schedEvs := if 0 < r.1.speed_dps then [event.sched 0] else []
      (r.1, 0, event.pwm_enable :: (r.2.2 ++ schedEvs))
    else (sd, ret, [event.pwm_enable])
  else if val = 0 ∧ sd.enabled = true then
    ({sd with enabled := false}, 0, [event.cancel_work, event.pwm_disable])
  else (sd, 0, [])

/-- The `SERVO_IOCTL_SET_ANGLE` case of `servo_unlocked_ioctl`
(src/servo.c lines 144-164): clamp, store as target, then return if
disabled, apply immediately if `speed_dps == 0`, else schedule a tick at
zero delay. -/
def servo_ioctl_set_angle (hw : pwm_backend) (sd : servo_dev) (val : Int) :
    servo_dev × Int × List event :=
  let sd1 := {sd with target_angle := clampAngle sd.limits val}
  if sd1.enabled = false then (sd1, 0, [])
  else if sd1.speed_dps = 0 then
    let r := servo_apply_angle hw sd1 sd1.target_angle
    (r.1, r.2.1, r.2.2)
  else (sd1, 0, [event.sched 0])

/-- The `SERVO_IOCTL_GET_ANGLE` case of `servo_unlocked_ioctl`
(src/servo.c lines 166-172): read `cur_angle` under the lock.
Result: (state, value read, event trace). -/
def servo_ioctl_get_angle (sd : servo_dev) : servo_dev × Int × List event :=
  (sd, sd.cur_angle, [])

/-- The `SERVO_IOCTL_SET_SPEED` case of `servo_unlocked_ioctl`
(src/servo.c lines 174-182): clamp negative speed to 0 and kick the
motion loop when there is outstanding motion. -/
def servo_ioctl_set_speed (sd : servo_dev) (val : Int) :
    servo_dev × Int × List event :=
  let sd1 := {sd with speed_dps := if val < 0 then 0 else val}
  if sd1.enabled = true ∧ 0 < sd1.speed_dps ∧ sd1.cur_angle ≠ sd1.target_angle then
    (sd1, 0, [event.sched 0])
  else (sd1, 0, [])

/-- The `SERVO_IOCTL_GET_SPEED` case of `servo_unlocked_ioctl`
(src/servo.c lines 184-190). -/
def servo_ioctl_get_speed (sd : servo_dev) : servo_dev × Int × List event :=
  (sd, sd.speed_dps, [])

/-- The `SERVO_IOCTL_SET_LIMITS` case of `servo_unlocked_ioctl`
(src/servo.c lines 192-207): reject inverted ranges with `-EINVAL` (-22)
before taking the lock, otherwise replace the limits and, if enabled,
re-apply the current angle. -/
def servo_ioctl_set_limits (hw : pwm_backend) (sd : servo_dev) (lims : servo_limits) :
    servo_dev × Int × List event :=
  if lims.max_angle ≤ lims.min_angle then (sd, -22, [])
  else if lims.max_pulse_ns ≤ lims.min_pulse_ns then (sd, -22, [])
  else
    let sd1 := {sd with limits := lims}
    if sd1.enabled = true then
      let r := servo_apply_angle hw sd1 sd1.cur_angle
      (r.1, r.2.1, r.2.2)
    else (sd1, 0, [])

/-- The `SERVO_IOCTL_GET_LIMITS` case of `servo_unlocked_ioctl`
(src/servo.c lines 209-217). Result: (state, limits read, event trace). -/
def servo_ioctl_get_limits (sd : servo_dev) : servo_dev × servo_limits × List event :=
  (sd, sd.limits, [])

/-- The default limits installed by `servo_probe`
(src/servo.c lines 270-274). -/
def servo_default_limits : servo_limits :=
  { min_angle := 0, max_angle := 180, min_pulse_ns := 1000000, max_pulse_ns := 2000000 }

/-- The state `servo_probe` builds before pre-configuring the PWM
(src/servo.c lines 268-279). -/
def servo_probe_state : servo_dev :=
  { enabled := false, cur_angle := 90, target_angle := 90, speed_dps := 0,
    limits := servo_default_limits, period_ns := 20000000, tick_ms := 20 }

/-- The motion-core part of `servo_probe` (src/servo.c lines 254-295):
build the default state and pre-configure the PWM with the pulse for the
default current angle (the chardev registration that follows is out of
scope). Result: (state, probe return value, event trace). -/
def servo_probe (hw : pwm_backend) : servo_dev × Int × List event :=
  let sd := servo_probe_state
  let duty := map_angle_to_pulse_ns sd.limits sd.cur_angle
  (sd, hw.config_ret duty sd.period_ns, [event.pwm_config duty sd.period_ns])

/-- A PWM backend whose calls all succeed. -/
def hw0 : pwm_backend := { config_ret := fun _ _ => 0, enable_ret := 0 }

/-- A PWM backend whose `pwm_config` always fails with `-EIO` (-5). -/
def hwFail : pwm_backend := { config_ret := fun _ _ => -5, enable_ret := 0 }

/-- Invariant 1 of the spec's data model: both `cur_angle` and
`target_angle` lie within `[limits.min_angle, limits.max_angle]`. -/
def angles_in_limits (sd : servo_dev) : Prop :=
  sd.limits.min_angle ≤ sd.cur_angle ∧ sd.cur_angle ≤ sd.limits.max_angle ∧
  sd.limits.min_angle ≤ sd.target_angle ∧ sd.target_angle ≤ sd.limits.max_angle

instance (sd : servo_dev) : Decidable (angles_in_limits sd) := by
  unfold angles_in_limits; infer_instance

/-- The pulse mapping as the spec's §4.1 words it: clamp the angle into
`[min_angle, max_angle]`, then
`min_pulse_ns + (max_pulse_ns - min_pulse_ns) * (angle - min_angle) / (max_angle - min_angle)`
in exact integer arithmetic with truncation toward zero (all quantities
are non-negative here, so `Nat` subtraction-free arithmetic is exact).
This definition exists only to be compared with `map_angle_to_pulse_ns`. -/
def map_spec_pulse (l : servo_limits) (angle : Int) : Nat :=
  let a := clampAngle l angle
  l.min_pulse_ns +
    (l.max_pulse_ns - l.min_pulse_ns) * (a - l.min_angle).toNat /
      (l.max_angle - l.min_angle).toNat

/-- A concrete mid-motion state: enabled, moving from 0 toward 180 at
90 degrees per second, used to instantiate the hypothesis-bearing
theorems below. -/
def servo_moving_state : servo_dev :=
  { servo_probe_state with
    enabled := true, speed_dps := 90,
    cur_angle := 0, target_angle := 180 }

/-! ### Helper lemmas -/

/-- Converting a C `int` value that is already in `[0, 2^32)` to
`unsigned int` is the identity. -/
theorem toUns_eq_toNat (z : Int) (h0 : 0 ≤ z) (h1 : z < 4294967296) :
    toUns z = z.toNat := by
  unfold toUns
  rw [Int.emod_eq_of_lt h0 h1]

/-- Converting an `unsigned int` value below `2^31` back to `int` is the
identity. -/
theorem toSigned_eq_self (n : Nat) (h : n < 2147483648) :
    toSigned n = (n : Int) := by
  unfold toSigned
  have hm : n % 4294967296 = n := Nat.mod_eq_of_lt (by omega)
  rw [hm, if_pos h]

/-- C `int` wrap-around is the identity on values already in the `int`
range `[-2^31, 2^31)`. -/
theorem wrap32_eq_self (z : Int) (h1 : -2147483648 ≤ z) (h2 : z < 2147483648) :
    wrap32 z = z := by
  simp only [wrap32, toUns, toSigned]
  split_ifs <;> omega

/-- The clamped angle lies in `[min_angle, max_angle]` whenever that
interval is nonempty. -/
theorem clampAngle_mem (l : servo_limits) (v : Int)
    (h : l.min_angle ≤ l.max_angle) :
    l.min_angle ≤ clampAngle l v ∧ clampAngle l v ≤ l.max_angle := by
  unfold clampAngle
  split_ifs <;> omega

/-- Clamping is monotone. -/
theorem clampAngle_mono (l : servo_limits) {a b : Int} (hab : a ≤ b) :
    clampAngle l a ≤ clampAngle l b := by
  unfold clampAngle
  split_ifs <;> omega

/-- Clamping fixes values already inside the interval. -/
theorem clampAngle_of_mem (l : servo_limits) {v : Int}
    (h1 : l.min_angle ≤ v) (h2 : v ≤ l.max_angle) :
    clampAngle l v = v := by
  unfold clampAngle
  split_ifs <;> omega

/-- `servo_apply_angle` never touches `enabled`, `target_angle`,
`speed_dps`, `limits`, `period_ns` or `tick_ms`, and leaves `cur_angle`
either unchanged or set to its argument. -/
theorem servo_apply_angle_fields (hw : pwm_backend) (sd : servo_dev) (angle : Int) :
    (servo_apply_angle hw sd angle).1.enabled = sd.enabled ∧
    (servo_apply_angle hw sd angle).1.target_angle = sd.target_angle ∧
    (servo_apply_angle hw sd angle).1.speed_dps = sd.speed_dps ∧
    (servo_apply_angle hw sd angle).1.limits = sd.limits ∧
    (servo_apply_angle hw sd angle).1.period_ns = sd.period_ns ∧
    (servo_apply_angle hw sd angle).1.tick_ms = sd.tick_ms ∧
    ((servo_apply_angle hw sd angle).1.cur_angle = sd.cur_angle ∨
      (servo_apply_angle hw sd angle).1.cur_angle = angle) := by
  simp only [servo_apply_angle]
  split_ifs <;> simp

/-! ### C4 — apply contract -/

/-- C4: `servo_apply_angle` is a no-op success when disabled; when enabled
it issues exactly one `pwm_config` call with the mapped pulse, updates
`cur_angle` to its argument exactly when that call succeeds, and on
backend failure leaves the state unmodified and returns the backend error
without retrying. -/
theorem C4_apply_contract (hw : pwm_backend) (sd : servo_dev) (angle : Int) :
    (sd.enabled = false → servo_apply_angle hw sd angle = (sd, 0, [])) ∧
    (sd.enabled = true →
      (servo_apply_angle hw sd angle).2.2 =
          [event.pwm_config (map_angle_to_pulse_ns sd.limits angle) sd.period_ns] ∧
      (hw.config_ret (map_angle_to_pulse_ns sd.limits angle) sd.period_ns = 0 →
        servo_apply_angle hw sd angle =
          ({sd with cur_angle := angle}, 0,
            [event.pwm_config (map_angle_to_pulse_ns sd.limits angle) sd.period_ns])) ∧
      (hw.config_ret (map_angle_to_pulse_ns sd.limits angle) sd.period_ns ≠ 0 →
        servo_apply_angle hw sd angle =
          (sd, hw.config_ret (map_angle_to_pulse_ns sd.limits angle) sd.period_ns,
            [event.pwm_config (map_angle_to_pulse_ns sd.limits angle) sd.period_ns]))) := by
  simp only [servo_apply_angle]
  split_ifs with h1 h2 <;> simp_all

/-- Witness for C4 at a concrete input: applying while disabled is a no-op
success. -/
theorem C4_apply_witness :
    servo_apply_angle hw0 servo_probe_state 45 = (servo_probe_state, 0, []) :=
  (C4_apply_contract hw0 servo_probe_state 45).1 rfl

/-! ### C6 — tick is a no-op when there is nothing to do -/

/-- C6: when disabled, in jump mode (`speed_dps = 0`), or already at the
target, a tick leaves the state unchanged, makes no hardware call and
does not reschedule (empty event trace). -/
theorem C6_tick_noop (hw : pwm_backend) (sd : servo_dev)
    (h : sd.enabled = false ∨ sd.speed_dps = 0 ∨ sd.cur_angle = sd.target_angle) :
    servo_motion_tick hw sd = (sd, []) := by
  have hcond : ¬(sd.enabled = true ∧ 0 < sd.speed_dps ∧ sd.cur_angle ≠ sd.target_angle) := by
    rcases h with h | h | h <;> simp [h]
  have hres : reschedList sd = [] := by
    unfold reschedList
    rw [if_neg hcond]
  unfold servo_motion_tick
  rw [if_pos h, hres]

/-- Witness for C6 at a concrete input: the freshly probed (disabled)
state. -/
theorem C6_tick_noop_witness :
    servo_motion_tick hw0 servo_probe_state = (servo_probe_state, []) :=
  C6_tick_noop hw0 servo_probe_state (Or.inl rfl)

/-! ### C9 — ENABLE is idempotent -/

/-- C9: requesting enable (any nonzero value) while already enabled, or
disable (zero) while already disabled, leaves the state unchanged, makes
no hardware or scheduler call, and returns success. -/
theorem C9_enable_idempotent (hw : pwm_backend) (sd : servo_dev) (val : Int)
    (h : (val ≠ 0 ∧ sd.enabled = true) ∨ (val = 0 ∧ sd.enabled = false)) :
    servo_ioctl_enable hw sd val = (sd, 0, []) := by
  unfold servo_ioctl_enable
  rcases h with ⟨h1, h2⟩ | ⟨h1, h2⟩
  · rw [if_neg (by simp [h2]), if_neg (by simp [h1])]
  · rw [if_neg (by simp [h1]), if_neg (by simp [h2])]

/-- Witness for C9 at a concrete input: disabling the already-disabled
probe state. -/
theorem C9_enable_idempotent_witness :
    servo_ioctl_enable hw0 servo_probe_state 0 = (servo_probe_state, 0, []) :=
  C9_enable_idempotent hw0 servo_probe_state 0 (Or.inr ⟨rfl, rfl⟩)

/-! ### C10 — getters have no effect -/

/-- C10: the three getter commands return the requested field and leave
the whole state unchanged with an empty event trace (no hardware call, no
scheduling). -/
theorem C10_getters_frame (sd : servo_dev) :
    servo_ioctl_get_angle sd = (sd, sd.cur_angle, []) ∧
    servo_ioctl_get_speed sd = (sd, sd.speed_dps, []) ∧
    servo_ioctl_get_limits sd = (sd, sd.limits, []) :=
  ⟨rfl, rfl, rfl⟩

/-! ### C5 — no pulse write while disabled -/

/-- Counterexample to C5 as stated: driver initialisation (`servo_probe`)
issues a `pwm_config` pulse-width write although the state it builds has
`enabled = false`. -/
theorem C5_probe_counterexample :
    servo_probe_state.enabled = false ∧
    (servo_probe hw0).1 = servo_probe_state ∧
    (servo_probe hw0).2.2 = [event.pwm_config 1500000 20000000] ∧
    isPulseWrite (event.pwm_config 1500000 20000000) = true := by
  refine ⟨rfl, rfl, ?_, rfl⟩
  decide

/-- C5 (amended): apart from driver initialisation (which pre-configures
the PWM once while still disabled) and the ENABLE command (which flips
`enabled` to true before writing), no operation started in a state with
`enabled = false` issues any backend or scheduler call at all: the tick,
the setters and the getters all produce an empty event trace, and
ENABLE(0) from a disabled state is also a no-op. -/
theorem C5_disabled_no_pulse_write (hw : pwm_backend) (sd : servo_dev)
    (h : sd.enabled = false) :
    (servo_motion_tick hw sd).2 = [] ∧
    (∀ val, (servo_ioctl_set_angle hw sd val).2.2 = []) ∧
    (∀ val, (servo_ioctl_set_speed sd val).2.2 = []) ∧
    (servo_ioctl_get_angle sd).2.2 = [] ∧
    (servo_ioctl_get_speed sd).2.2 = [] ∧
    (servo_ioctl_get_limits sd).2.2 = [] ∧
    (∀ lims, (servo_ioctl_set_limits hw sd lims).2.2 = []) ∧
    (servo_ioctl_enable hw sd 0).2.2 = [] := by
  refine ⟨?_, ?_, ?_, rfl, rfl, rfl, ?_, ?_⟩
  · unfold servo_motion_tick reschedList
    rw [if_pos (Or.inl h), if_neg (by simp [h])]
  · intro val
    simp [servo_ioctl_set_angle, h]
  · intro val
    unfold servo_ioctl_set_speed
    rw [if_neg (by simp [h])]
  · intro lims
    unfold servo_ioctl_set_limits
    split_ifs with h1 h2
    · rfl
    · rfl
    · simp [h]
  · unfold servo_ioctl_enable
    rw [if_neg (by simp), if_neg (by simp [h])]

/-- Witness for the amended C5 at a concrete input: a tick in the
disabled probe state produces no events. -/
theorem C5_disabled_witness :
    (servo_motion_tick hw0 servo_probe_state).2 = [] :=
  (C5_disabled_no_pulse_write hw0 servo_probe_state rfl).1

/-! ### C8 — set_limits validation and replacement -/

/-- C8: `SET_LIMITS` rejects an inverted angle or pulse range with
`-EINVAL` and changes nothing (so a following `GET_LIMITS` still returns
the prior limits); a valid request replaces the limits and, when enabled,
immediately re-applies `cur_angle` as one `pwm_config` call under the new
pulse bounds. -/
theorem C8_set_limits_contract (hw : pwm_backend) (sd : servo_dev) (lims : servo_limits) :
    ((lims.max_angle ≤ lims.min_angle ∨ lims.max_pulse_ns ≤ lims.min_pulse_ns) →
        servo_ioctl_set_limits hw sd lims = (sd, -22, []) ∧
        (servo_ioctl_get_limits (servo_ioctl_set_limits hw sd lims).1).2.1 = sd.limits) ∧
    (lims.min_angle < lims.max_angle → lims.min_pulse_ns < lims.max_pulse_ns →
        (servo_ioctl_set_limits hw sd lims).1.limits = lims ∧
        (sd.enabled = false →
          servo_ioctl_set_limits hw sd lims = ({sd with limits := lims}, 0, [])) ∧
        (sd.enabled = true →
          (servo_ioctl_set_limits hw sd lims).2.2 =
            [event.pwm_config (map_angle_to_pulse_ns lims sd.cur_angle) sd.period_ns])) := by
  constructor
  · intro hbad
    unfold servo_ioctl_set_limits
    split_ifs with h1 h2
    · exact ⟨rfl, rfl⟩
    · exact ⟨rfl, rfl⟩
    · omega
  · intro hA hP
    have h1 : ¬ lims.max_angle ≤ lims.min_angle := by omega
    have h2 : ¬ lims.max_pulse_ns ≤ lims.min_pulse_ns := by omega
    simp only [servo_ioctl_set_limits]
    rw [if_neg h1, if_neg h2]
    by_cases hen : sd.enabled = true
    · rw [if_pos (show ({sd with limits := lims} : servo_dev).enabled = true from hen)]
      refine ⟨?_, ?_, ?_⟩
      · simp only [servo_apply_angle]
        split_ifs <;> simp
      · intro hf
        rw [hen] at hf
        exact Bool.noConfusion hf
      · intro _
        simp only [servo_apply_angle]
        rw [if_neg (by simp [hen])]
        split_ifs <;> simp
    · have hen' : sd.enabled = false := by
        cases hsd : sd.enabled
        · rfl
        · exact absurd hsd hen
      simp [servo_apply_angle, hen']

/-- Witness for C8 at a concrete input: the spec's own test case, inverted
pulse limits are rejected with no state change. -/
theorem C8_set_limits_witness :
    servo_ioctl_set_limits hw0 servo_probe_state ⟨0, 180, 2000000, 1000000⟩ =
      (servo_probe_state, -22, []) :=
  ((C8_set_limits_contract hw0 servo_probe_state ⟨0, 180, 2000000, 1000000⟩).1
    (Or.inr (by norm_num))).1

/-! ### C7 — set_target_angle -/

/-- Counterexample to C7 as stated: `SET_ANGLE` does not always succeed.
In an enabled state with `speed_dps = 0` it applies immediately, and when
the backend `pwm_config` fails (here with -EIO) the ioctl returns that
error. -/
theorem C7_backend_failure_counterexample :
    (servo_ioctl_set_angle hwFail { servo_probe_state with enabled := true } 45).2.1 = -5 ∧
    (-5 : Int) ≠ 0 := by
  refine ⟨?_, by decide⟩
  decide

/-- C7 (amended): `SET_ANGLE` always stores the clamped value (never the
raw input) as `target_angle`; if disabled it only stores, with no
hardware effect, and succeeds; if enabled with `speed_dps = 0` it applies
immediately — on backend success `cur_angle` equals the new
`target_angle` after exactly one `pwm_config` call and nothing is
scheduled, while on backend failure the backend error is returned (the
clamped target is still stored, `cur_angle` is unchanged); if enabled
with `speed_dps ≠ 0` it schedules a tick at zero delay and performs no
inline stepping and no hardware call. -/
theorem C7_set_angle_contract (hw : pwm_backend) (sd : servo_dev) (val : Int)
    (h : sd.limits.min_angle ≤ sd.limits.max_angle) :
    (servo_ioctl_set_angle hw sd val).1.target_angle = clampAngle sd.limits val ∧
    sd.limits.min_angle ≤ (servo_ioctl_set_angle hw sd val).1.target_angle ∧
    (servo_ioctl_set_angle hw sd val).1.target_angle ≤ sd.limits.max_angle ∧
    (sd.enabled = false →
      servo_ioctl_set_angle hw sd val =
        ({sd with target_angle := clampAngle sd.limits val}, 0, [])) ∧
    (sd.enabled = true → sd.speed_dps = 0 →
      (hw.config_ret (map_angle_to_pulse_ns sd.limits (clampAngle sd.limits val)) sd.period_ns = 0 →
        (servo_ioctl_set_angle hw sd val).1.cur_angle = clampAngle sd.limits val ∧
        (servo_ioctl_set_angle hw sd val).2.1 = 0 ∧
        (servo_ioctl_set_angle hw sd val).2.2 =
          [event.pwm_config
            (map_angle_to_pulse_ns sd.limits (clampAngle sd.limits val)) sd.period_ns]) ∧
      (hw.config_ret (map_angle_to_pulse_ns sd.limits (clampAngle sd.limits val)) sd.period_ns ≠ 0 →
        (servo_ioctl_set_angle hw sd val).1.cur_angle = sd.cur_angle ∧
        (servo_ioctl_set_angle hw sd val).2.1 =
          hw.config_ret (map_angle_to_pulse_ns sd.limits (clampAngle sd.limits val)) sd.period_ns)) ∧
    (sd.enabled = true → sd.speed_dps ≠ 0 →
      servo_ioctl_set_angle hw sd val =
        ({sd with target_angle := clampAngle sd.limits val}, 0, [event.sched 0])) := by
  have hmem := clampAngle_mem sd.limits val h
  simp only [servo_ioctl_set_angle, servo_apply_angle]
  split_ifs with h1 h2 h3 <;> simp_all

/-- Witness for the amended C7 at a concrete input: from the disabled
probe state, a request of 200 degrees stores the clamped target 180 and
succeeds without touching hardware. -/
theorem C7_set_angle_witness :
    servo_ioctl_set_angle hw0 servo_probe_state 200 =
      ({servo_probe_state with target_angle := clampAngle servo_default_limits 200}, 0, []) :=
  ((C7_set_angle_contract hw0 servo_probe_state 200 (by decide)).2.2.2.1) rfl

/-! ### C1 — the angle-window invariant -/

/-- `ENABLE` never changes `cur_angle`, `target_angle` or `limits`
(the apply it may perform re-asserts the unchanged current angle). -/
theorem servo_ioctl_enable_angle_fields (hw : pwm_backend) (sd : servo_dev) (val : Int) :
    (servo_ioctl_enable hw sd val).1.cur_angle = sd.cur_angle ∧
    (servo_ioctl_enable hw sd val).1.target_angle = sd.target_angle ∧
    (servo_ioctl_enable hw sd val).1.limits = sd.limits := by
  simp only [servo_ioctl_enable, servo_apply_angle]
  split_ifs <;> simp

/-- `SET_ANGLE` keeps the limits, stores the clamped request as target,
and either leaves `cur_angle` alone or moves it to the clamped request. -/
theorem servo_ioctl_set_angle_fields (hw : pwm_backend) (sd : servo_dev) (val : Int) :
    (servo_ioctl_set_angle hw sd val).1.limits = sd.limits ∧
    (servo_ioctl_set_angle hw sd val).1.target_angle = clampAngle sd.limits val ∧
    ((servo_ioctl_set_angle hw sd val).1.cur_angle = sd.cur_angle ∨
      (servo_ioctl_set_angle hw sd val).1.cur_angle = clampAngle sd.limits val) := by
  simp only [servo_ioctl_set_angle, servo_apply_angle]
  split_ifs <;> simp

/-- `SET_LIMITS` never changes the angle fields; the limits either stay or
become the request. -/
theorem servo_ioctl_set_limits_fields (hw : pwm_backend) (sd : servo_dev) (lims : servo_limits) :
    (servo_ioctl_set_limits hw sd lims).1.cur_angle = sd.cur_angle ∧
    (servo_ioctl_set_limits hw sd lims).1.target_angle = sd.target_angle ∧
    ((servo_ioctl_set_limits hw sd lims).1.limits = sd.limits ∨
      (servo_ioctl_set_limits hw sd lims).1.limits = lims) := by
  simp only [servo_ioctl_set_limits, servo_apply_angle]
  split_ifs <;> simp

/-- Counterexample to C1 as stated: a successful `SET_LIMITS` that narrows
the angle range (here to `[100, 180]` over a state sitting at 90) leaves
`cur_angle` and `target_angle` outside the new limits — the code never
re-clamps them. -/
theorem C1_set_limits_counterexample :
    angles_in_limits servo_probe_state ∧
    (servo_ioctl_set_limits hw0 servo_probe_state ⟨100, 180, 1000000, 2000000⟩).2.1 = 0 ∧
    ¬ angles_in_limits
        (servo_ioctl_set_limits hw0 servo_probe_state ⟨100, 180, 1000000, 2000000⟩).1 := by
  refine ⟨by decide, by decide, by decide⟩

/-- C1 (amended): every command-processor operation except `SET_LIMITS`
preserves `limits.min_angle ≤ cur_angle, target_angle ≤ limits.max_angle`;
`SET_LIMITS` preserves it when the request is rejected, and when it is
accepted provided the prior `cur_angle` and `target_angle` already lie
within the newly requested limits (the code does not re-clamp them, which
is exactly what the counterexample exploits). -/
theorem C1_angle_window_preservation (hw : pwm_backend) (sd : servo_dev)
    (h : angles_in_limits sd) :
    (∀ val, angles_in_limits (servo_ioctl_enable hw sd val).1) ∧
    (∀ val, angles_in_limits (servo_ioctl_set_angle hw sd val).1) ∧
    (∀ val, angles_in_limits (servo_ioctl_set_speed sd val).1) ∧
    angles_in_limits (servo_ioctl_get_angle sd).1 ∧
    angles_in_limits (servo_ioctl_get_speed sd).1 ∧
    angles_in_limits (servo_ioctl_get_limits sd).1 ∧
    (∀ lims, lims.max_angle ≤ lims.min_angle ∨ lims.max_pulse_ns ≤ lims.min_pulse_ns →
      angles_in_limits (servo_ioctl_set_limits hw sd lims).1) ∧
    (∀ lims,
      lims.min_angle ≤ sd.cur_angle ∧ sd.cur_angle ≤ lims.max_angle ∧
      lims.min_angle ≤ sd.target_angle ∧ sd.target_angle ≤ lims.max_angle →
      angles_in_limits (servo_ioctl_set_limits hw sd lims).1) := by
  have hc1 := h.1
  have hc2 := h.2.1
  have ht1 := h.2.2.1
  have ht2 := h.2.2.2
  have hA : sd.limits.min_angle ≤ sd.limits.max_angle := le_trans hc1 hc2
  refine ⟨?_, ?_, ?_, h, h, h, ?_, ?_⟩
  · intro val
    obtain ⟨e1, e2, e3⟩ := servo_ioctl_enable_angle_fields hw sd val
    unfold angles_in_limits
    rw [e1, e2, e3]
    exact ⟨hc1, hc2, ht1, ht2⟩
  · intro val
    obtain ⟨e1, e2, e3⟩ := servo_ioctl_set_angle_fields hw sd val
    obtain ⟨m1, m2⟩ := clampAngle_mem sd.limits val hA
    unfold angles_in_limits
    rw [e1, e2]
    rcases e3 with e3 | e3 <;> rw [e3] <;> exact ⟨by omega, by omega, m1, m2⟩
  · intro val
    simp only [servo_ioctl_set_speed]
    split_ifs <;> exact ⟨hc1, hc2, ht1, ht2⟩
  · intro lims hbad
    unfold servo_ioctl_set_limits
    split_ifs with h1 h2
    · exact ⟨hc1, hc2, ht1, ht2⟩
    · exact ⟨hc1, hc2, ht1, ht2⟩
    · omega
  · intro lims hin
    obtain ⟨e1, e2, e3⟩ := servo_ioctl_set_limits_fields hw sd lims
    unfold angles_in_limits
    rw [e1, e2]
    rcases e3 with e3 | e3 <;> rw [e3]
    · exact ⟨hc1, hc2, ht1, ht2⟩
    · exact ⟨hin.1, hin.2.1, hin.2.2.1, hin.2.2.2⟩

/-- Witness for the amended C1 at a concrete input: `SET_ANGLE` of an
out-of-range request on the probe state keeps both angles inside the
default limits. -/
theorem C1_preservation_witness :
    angles_in_limits (servo_ioctl_set_angle hw0 servo_probe_state 200).1 :=
  (C1_angle_window_preservation hw0 servo_probe_state (by decide)).2.1 200

/-! ### C2 — the pulse mapping -/

/-- Under the data-model invariant, the C-type range facts, and the
no-overflow bound `span * (max_angle - min_angle) < 2^32`, the driver's
32-bit computation agrees with the spec's exact formula. -/
theorem map_angle_to_pulse_ns_eq_spec (l : servo_limits) (angle : Int)
    (hA : l.min_angle < l.max_angle)
    (hAr : l.max_angle - l.min_angle < 4294967296)
    (hP : l.min_pulse_ns < l.max_pulse_ns)
    (hPU : l.max_pulse_ns < 4294967296)
    (hnov : (l.max_pulse_ns - l.min_pulse_ns) * (l.max_angle - l.min_angle).toNat < 4294967296) :
    map_angle_to_pulse_ns l angle = map_spec_pulse l angle := by
  obtain ⟨hm1, hm2⟩ := clampAngle_mem l angle (le_of_lt hA)
  have hspan : (l.max_pulse_ns + 4294967296 - l.min_pulse_ns) % 4294967296 =
      l.max_pulse_ns - l.min_pulse_ns := by omega
  have hD : toUns (l.max_angle - l.min_angle) = (l.max_angle - l.min_angle).toNat :=
    toUns_eq_toNat _ (by omega) (by omega)
  have hx : toUns (clampAngle l angle - l.min_angle) =
      (clampAngle l angle - l.min_angle).toNat :=
    toUns_eq_toNat _ (by omega) (by omega)
  have hxle : (clampAngle l angle - l.min_angle).toNat ≤ (l.max_angle - l.min_angle).toNat := by
    omega
  have hprod : (l.max_pulse_ns - l.min_pulse_ns) * (clampAngle l angle - l.min_angle).toNat <
      4294967296 :=
    lt_of_le_of_lt (Nat.mul_le_mul_left _ hxle) hnov
  have hDpos : 0 < (l.max_angle - l.min_angle).toNat := by omega
  have hq : (l.max_pulse_ns - l.min_pulse_ns) * (clampAngle l angle - l.min_angle).toNat /
      (l.max_angle - l.min_angle).toNat ≤ l.max_pulse_ns - l.min_pulse_ns := by
    calc (l.max_pulse_ns - l.min_pulse_ns) * (clampAngle l angle - l.min_angle).toNat /
        (l.max_angle - l.min_angle).toNat
        ≤ (l.max_pulse_ns - l.min_pulse_ns) * (l.max_angle - l.min_angle).toNat /
          (l.max_angle - l.min_angle).toNat :=
          Nat.div_le_div_right (Nat.mul_le_mul_left _ hxle)
      _ = l.max_pulse_ns - l.min_pulse_ns := Nat.mul_div_cancel _ hDpos
  simp only [map_angle_to_pulse_ns, map_spec_pulse, U32]
  rw [hspan, hx, hD, Nat.mod_eq_of_lt hprod, Nat.mod_eq_of_lt (by omega)]

/-- Counterexample to C2 as stated: with the valid limits
`min_angle = 0 < max_angle = 3`, `min_pulse_ns = 0 < max_pulse_ns = 3000000000`
the 32-bit product `span * (angle - min_angle)` overflows, so the map is
not the exact formula (at `angle = max_angle` it returns 136688469 instead
of `max_pulse_ns`) and is not monotonic (`map 2 < map 1`). -/
theorem C2_overflow_counterexample :
    (0 : Int) < 3 ∧ (0 : Nat) < 3000000000 ∧
    map_angle_to_pulse_ns ⟨0, 3, 0, 3000000000⟩ 3 = 136688469 ∧
    map_spec_pulse ⟨0, 3, 0, 3000000000⟩ 3 = 3000000000 ∧
    map_angle_to_pulse_ns ⟨0, 3, 0, 3000000000⟩ 2 <
      map_angle_to_pulse_ns ⟨0, 3, 0, 3000000000⟩ 1 := by
  refine ⟨by decide, by decide, by decide, by decide, by decide⟩

/-- C2 (amended): for limits with `min_angle < max_angle`,
`min_pulse_ns < max_pulse_ns`, fields in their C-type ranges, and the
no-overflow bound
`(max_pulse_ns - min_pulse_ns) * (max_angle - min_angle) < 2^32`,
`map_angle_to_pulse_ns` clamps and then computes exactly
`min_pulse_ns + (max_pulse_ns - min_pulse_ns) * (clamped - min_angle) / (max_angle - min_angle)`
with truncating integer division; consequently it never goes below
`min_pulse_ns` nor above `max_pulse_ns`, is monotonic non-decreasing in
the angle, and hits `min_pulse_ns` at `min_angle` and `max_pulse_ns` at
`max_angle` exactly. -/
theorem C2_map_exact_contract (l : servo_limits)
    (hA : l.min_angle < l.max_angle)
    (hAr : l.max_angle - l.min_angle < 4294967296)
    (hP : l.min_pulse_ns < l.max_pulse_ns)
    (hPU : l.max_pulse_ns < 4294967296)
    (hnov : (l.max_pulse_ns - l.min_pulse_ns) * (l.max_angle - l.min_angle).toNat < 4294967296) :
    (∀ angle, map_angle_to_pulse_ns l angle = map_spec_pulse l angle) ∧
    (∀ angle, l.min_pulse_ns ≤ map_angle_to_pulse_ns l angle ∧
      map_angle_to_pulse_ns l angle ≤ l.max_pulse_ns) ∧
    (∀ a b : Int, a ≤ b → map_angle_to_pulse_ns l a ≤ map_angle_to_pulse_ns l b) ∧
    map_angle_to_pulse_ns l l.min_angle = l.min_pulse_ns ∧
    map_angle_to_pulse_ns l l.max_angle = l.max_pulse_ns := by
  have heq : ∀ angle, map_angle_to_pulse_ns l angle = map_spec_pulse l angle := fun angle =>
    map_angle_to_pulse_ns_eq_spec l angle hA hAr hP hPU hnov
  have hDpos : 0 < (l.max_angle - l.min_angle).toNat := by omega
  have hq : ∀ angle : Int,
      (l.max_pulse_ns - l.min_pulse_ns) * (clampAngle l angle - l.min_angle).toNat /
        (l.max_angle - l.min_angle).toNat ≤ l.max_pulse_ns - l.min_pulse_ns := by
    intro angle
    obtain ⟨hm1, hm2⟩ := clampAngle_mem l angle (le_of_lt hA)
    have hxle : (clampAngle l angle - l.min_angle).toNat ≤
        (l.max_angle - l.min_angle).toNat := by omega
    calc (l.max_pulse_ns - l.min_pulse_ns) * (clampAngle l angle - l.min_angle).toNat /
        (l.max_angle - l.min_angle).toNat
        ≤ (l.max_pulse_ns - l.min_pulse_ns) * (l.max_angle - l.min_angle).toNat /
          (l.max_angle - l.min_angle).toNat :=
          Nat.div_le_div_right (Nat.mul_le_mul_left _ hxle)
      _ = l.max_pulse_ns - l.min_pulse_ns := Nat.mul_div_cancel _ hDpos
  refine ⟨heq, ?_, ?_, ?_, ?_⟩
  · intro angle
    rw [heq angle]
    simp only [map_spec_pulse]
    exact ⟨Nat.le_add_right _ _, by have := hq angle; omega⟩
  · intro a b hab
    rw [heq a, heq b]
    simp only [map_spec_pulse]
    have hcm := clampAngle_mono l hab
    have h1 : l.min_angle ≤ clampAngle l a := (clampAngle_mem l a (le_of_lt hA)).1
    have hx : (clampAngle l a - l.min_angle).toNat ≤ (clampAngle l b - l.min_angle).toNat := by
      omega
    exact Nat.add_le_add_left (Nat.div_le_div_right (Nat.mul_le_mul_left _ hx)) _
  · rw [heq l.min_angle]
    simp only [map_spec_pulse]
    rw [clampAngle_of_mem l (le_refl l.min_angle) (le_of_lt hA)]
    simp
  · rw [heq l.max_angle]
    simp only [map_spec_pulse]
    rw [clampAngle_of_mem l (le_of_lt hA) (le_refl l.max_angle)]
    rw [Nat.mul_div_cancel _ hDpos]
    omega

/-- Witness for the amended C2 at a concrete input: the default limits
(span 1000000, angle range 180, no overflow) hit both endpoints exactly. -/
theorem C2_map_witness :
    map_angle_to_pulse_ns servo_default_limits 0 = 1000000 ∧
    map_angle_to_pulse_ns servo_default_limits 180 = 2000000 := by
  have h := C2_map_exact_contract servo_default_limits (by decide) (by decide) (by decide)
    (by decide) (by decide)
  exact ⟨h.2.2.2.1, h.2.2.2.2⟩

/-! ### C3 — the motion tick step -/

/-- Without 32-bit overflow (`speed_dps * tick_ms + 500 < 2^32`) the C
step computation equals the exact `(speed_dps * tick_ms + 500) / 1000`. -/
theorem tick_step_raw_eq (sd : servo_dev)
    (hsp : 0 < sd.speed_dps) (hsz : sd.speed_dps < 2147483648)
    (htk : sd.tick_ms < 4294967296)
    (hnov : sd.speed_dps.toNat * sd.tick_ms + 500 < 4294967296) :
    tick_step_raw sd = (sd.speed_dps.toNat * sd.tick_ms + 500) / 1000 := by
  simp only [tick_step_raw, U32]
  rw [toUns_eq_toNat sd.speed_dps (by omega) (by omega), Nat.mod_eq_of_lt htk,
    Nat.mod_eq_of_lt (show sd.speed_dps.toNat * sd.tick_ms < 4294967296 by omega),
    Nat.mod_eq_of_lt hnov]

/-- C3 (amended): when enabled with positive speed and away from the
target, with the angle fields in the C `int` range and
`|target_angle - cur_angle| < 2^31` (so the `delta` computation and the
move do not wrap), and the step computation not overflowing 32 bits
(`speed_dps * tick_ms + 500 < 2^32`), a tick whose backend `pwm_config`
succeeds moves `cur_angle` by exactly
`sign(target - cur) * min(step, |target - cur|)` where
`step = max 1 ((speed_dps * tick_ms + 500) / 1000)` (round-half-up forced
to at least 1), and the new `cur_angle` lies between the old `cur_angle`
and `target_angle` inclusive — a tick never overshoots. -/
theorem C3_tick_step_contract (hw : pwm_backend) (sd : servo_dev)
    (hen : sd.enabled = true) (hsp : 0 < sd.speed_dps) (hsz : sd.speed_dps < 2147483648)
    (hne : sd.cur_angle ≠ sd.target_angle)
    (hcl : -2147483648 ≤ sd.cur_angle) (hcu : sd.cur_angle < 2147483648)
    (htl : -2147483648 ≤ sd.target_angle) (htu : sd.target_angle < 2147483648)
    (hdlt : |sd.target_angle - sd.cur_angle| < 2147483648)
    (htk : sd.tick_ms < 4294967296)
    (hnov : sd.speed_dps.toNat * sd.tick_ms + 500 < 4294967296)
    (hok : ∀ d p, hw.config_ret d p = 0) :
    (servo_motion_tick hw sd).1.cur_angle =
      sd.cur_angle +
        (if sd.cur_angle < sd.target_angle then 1 else -1) *
          min ((max 1 ((sd.speed_dps.toNat * sd.tick_ms + 500) / 1000) : Nat) : Int)
            |sd.target_angle - sd.cur_angle| ∧
    min sd.cur_angle sd.target_angle ≤ (servo_motion_tick hw sd).1.cur_angle ∧
    (servo_motion_tick hw sd).1.cur_angle ≤ max sd.cur_angle sd.target_angle := by
  have hguard : ¬(sd.enabled = false ∨ sd.speed_dps = 0 ∨ sd.cur_angle = sd.target_angle) := by
    simp [hen, hne]
    omega
  have htick : (servo_motion_tick hw sd).1 = {sd with cur_angle := tick_next_angle sd} := by
    simp only [servo_motion_tick]
    rw [if_neg hguard]
    simp only [servo_apply_angle]
    rw [if_neg (by simp [hen]), if_pos (hok _ _)]
  have hraw : tick_step_raw sd = (sd.speed_dps.toNat * sd.tick_ms + 500) / 1000 :=
    tick_step_raw_eq sd hsp hsz htk hnov
  have hrawlt : tick_step_raw sd < 2147483648 := by
    rw [hraw]; omega
  have hsig : toSigned (tick_step_raw sd) = (tick_step_raw sd : Int) :=
    toSigned_eq_self _ hrawlt
  have hstep : (if toSigned (tick_step_raw sd) ≤ 0 then (1 : Int) else toSigned (tick_step_raw sd)) =
      ((max 1 ((sd.speed_dps.toNat * sd.tick_ms + 500) / 1000) : Nat) : Int) := by
    rw [hsig, hraw]
    rcases Nat.eq_zero_or_pos ((sd.speed_dps.toNat * sd.tick_ms + 500) / 1000) with h0 | h0
    · rw [h0]
      simp
    · have hpos : (0 : Int) < (((sd.speed_dps.toNat * sd.tick_ms + 500) / 1000 : Nat) : Int) := by
        exact_mod_cast h0
      rw [if_neg (by omega), Nat.max_eq_right h0]
  have habs' := abs_lt.mp hdlt
  have hw1 : wrap32 (sd.target_angle - sd.cur_angle) = sd.target_angle - sd.cur_angle :=
    wrap32_eq_self _ (by omega) (by omega)
  have hw2 : wrap32 (-(sd.target_angle - sd.cur_angle)) = -(sd.target_angle - sd.cur_angle) :=
    wrap32_eq_self _ (by omega) (by omega)
  have hnext : tick_next_angle sd =
      if 0 < sd.target_angle - sd.cur_angle then
        wrap32 (sd.cur_angle +
          min ((max 1 ((sd.speed_dps.toNat * sd.tick_ms + 500) / 1000) : Nat) : Int)
            (sd.target_angle - sd.cur_angle))
      else
        wrap32 (sd.cur_angle -
          min ((max 1 ((sd.speed_dps.toNat * sd.tick_ms + 500) / 1000) : Nat) : Int)
            (-(sd.target_angle - sd.cur_angle))) := by
    simp only [tick_next_angle]
    rw [hstep, hw1, hw2]
  rw [htick]
  have hs1 : (1 : Int) ≤ ((max 1 ((sd.speed_dps.toNat * sd.tick_ms + 500) / 1000) : Nat) : Int) := by
    exact_mod_cast Nat.le_max_left 1 _
  set s : Int := ((max 1 ((sd.speed_dps.toNat * sd.tick_ms + 500) / 1000) : Nat) : Int) with hsdef
  by_cases hd : sd.cur_angle < sd.target_angle
  · have hdpos : 0 < sd.target_angle - sd.cur_angle := by omega
    have habs : |sd.target_angle - sd.cur_angle| = sd.target_angle - sd.cur_angle :=
      abs_of_pos hdpos
    have hmin1 := min_le_left s (sd.target_angle - sd.cur_angle)
    have hmin2 := min_le_right s (sd.target_angle - sd.cur_angle)
    have hmin3 := min_choice s (sd.target_angle - sd.cur_angle)
    have hw3 : wrap32 (sd.cur_angle + min s (sd.target_angle - sd.cur_angle)) =
        sd.cur_angle + min s (sd.target_angle - sd.cur_angle) := by
      apply wrap32_eq_self <;> rcases hmin3 with hm | hm <;> omega
    simp only [hnext, if_pos hdpos, if_pos hd, habs, hw3]
    refine ⟨by ring, ?_, ?_⟩ <;> rcases hmin3 with hm | hm <;> rw [hm] <;> omega
  · have hdneg : sd.target_angle - sd.cur_angle < 0 := by
      rcases lt_or_le sd.target_angle sd.cur_angle with h | h
      · omega
      · omega
    have habs : |sd.target_angle - sd.cur_angle| = -(sd.target_angle - sd.cur_angle) :=
      abs_of_neg hdneg
    have hmin1 := min_le_left s (-(sd.target_angle - sd.cur_angle))
    have hmin2 := min_le_right s (-(sd.target_angle - sd.cur_angle))
    have hmin3 := min_choice s (-(sd.target_angle - sd.cur_angle))
    have hw3 : wrap32 (sd.cur_angle - min s (-(sd.target_angle - sd.cur_angle))) =
        sd.cur_angle - min s (-(sd.target_angle - sd.cur_angle)) := by
      apply wrap32_eq_self <;> rcases hmin3 with hm | hm <;> omega
    simp only [hnext, if_neg (by omega : ¬ 0 < sd.target_angle - sd.cur_angle),
      if_neg hd, habs, hw3]
    refine ⟨by ring, ?_, ?_⟩ <;> rcases hmin3 with hm | hm <;> rw [hm] <;> omega

/-- Counterexample to C3 as stated: at `speed_dps = 2147483647` (a valid
`int` speed, reachable through `SET_SPEED`) with `tick_ms = 20`, the
32-bit computation `speed_dps * tick_ms + 500` wraps, the code's step
collapses to 1 and the tick moves from 0 to 1, while the claimed
round-half-up formula gives step 42949673 and a move of
`min(42949673, 180) = 180` degrees. -/
theorem C3_overflow_counterexample :
    (servo_motion_tick hw0 { servo_moving_state with speed_dps := 2147483647 }).1.cur_angle = 1 ∧
    (1 : Int) ≠ 0 +
      (if (0 : Int) < 180 then 1 else -1) *
        min ((max 1 ((Int.toNat 2147483647 * 20 + 500) / 1000) : Nat) : Int) |(180 : Int) - 0| := by
  constructor
  · decide
  · decide

/-- Witness for the amended C3 at a concrete input: the spec's own example,
90 degrees per second at a 20 ms tick advances by 2 degrees. -/
theorem C3_tick_witness :
    (servo_motion_tick hw0 servo_moving_state).1.cur_angle = 2 := by
  rw [(C3_tick_step_contract hw0 servo_moving_state rfl (by decide) (by decide) (by decide)
    (by decide) (by decide) (by decide) (by decide) (by decide) (by decide) (by decide)
    (fun _ _ => rfl)).1]
  decide
